import Mathlib

/-!
Verification of the apihub operation-group creator (`main.go`).

The Go program is a linear pipeline: list operations page by page, filter
them by a custom tag, (re)create an operation group, set its membership,
then start an export and poll its status.  We embed each function
shallowly: remote responses become explicit data supplied through an
environment, and the pipeline produces a trace of the calls it issued
together with its final result.
-/

set_option maxRecDepth 4000

/-- The dynamic value stored in an operation's `customTags` map
(`map[string]any` in the source).  A value is a single string, a string
list (`[]string`), a heterogeneous list (`[]interface{}`), or one of the
non-string JSON shapes the filter ignores (number, boolean, object). -/
inductive GoVal where
  | str (s : String)
  | strList (xs : List String)
  | anyList (xs : List GoVal)
  | num (n : Int)
  | boolean (b : Bool)
  | obj

/-- The Go type assertion `elem.(string)`: `some s` exactly when the
dynamic value is a string. -/
def GoVal.asString : GoVal → Option String
  | .str s => some s
  | _ => none

/-- An operation as decoded from the list endpoint (`Operation` struct).
The Go map `CustomTags` is modelled as an association list. -/
structure Operation where
  operationID : String
  customTags : List (String × GoVal)
  packageRef : String

/-- The minimal projection sent back when assigning membership
(`OperationRef` struct). -/
structure OperationRef where
  operationID : String
deriving DecidableEq

/-- The `case` dispatch of `filterOperations`: does the tag value match
the target?  A string matches by equality, a `[]string` if some element
equals the target, a `[]interface{}` if some element is a string equal to
the target, anything else never matches. -/
def tagMatches (val : GoVal) (customTagValue : String) : Bool :=
  match val with
  | .str v => v == customTagValue
  | .strList v => v.any (fun s => s == customTagValue)
  | .anyList v => v.any (fun elem =>
      match elem.asString with
      | some s => s == customTagValue
      | none => false)
  | _ => false

/-- `filterOperations`: keep, in order, the operations whose tag under
`customTagKey` exists and matches `customTagValue`. -/
def filterOperations (ops : List Operation) (customTagKey customTagValue : String) :
    List Operation :=
  ops.filter (fun op =>
    match op.customTags.lookup customTagKey with
    | none => false
    | some val => tagMatches val customTagValue)

/-- The spec's normalisation of a tag value to its set of string values:
the comparison in the source must behave as "does this set contain the
target". -/
def stringTagValues : GoVal → List String
  | .str s => [s]
  | .strList xs => xs
  | .anyList xs => xs.filterMap GoVal.asString
  | _ => []

/-- An operation built from a base operation by attaching a single tag
value under a key (used to compare the representational shapes). -/
def withTagValue (op : Operation) (key : String) (v : GoVal) : Operation :=
  ⟨op.operationID, [(key, v)], op.packageRef⟩

/-- The payload construction of `updateGroupOperations`: one reference
per operation, in order. -/
def buildOperationRefs (operations : List Operation) : List OperationRef :=
  operations.map (fun op => ⟨op.operationID⟩)

/-- The fixed page size of `listOperations`. -/
def pageSize : Nat := 100

/-- The page loop of `listOperations`.  `pages` gives the backend's reply
for each page index; the function returns the page indices requested and
either the accumulated operations or the first error.  The Go loop has no
bound, so the embedding carries fuel; every theorem supplies enough. -/
def listOperationsAux (pages : Nat → Except String (List Operation)) :
    Nat → Nat → List Nat × Except String (List Operation)
  | _, 0 => ([], .error "out of fuel")
  | page, fuel + 1 =>
    match pages page with
    | .error e => ([page], .error e)
    | .ok pageOps =>
      if pageOps.length < pageSize then
        ([page], .ok pageOps)
      else
        let r := listOperationsAux pages (page + 1) fuel
        (page :: r.1,
         match r.2 with
         | .error e => .error e
         | .ok more => .ok (pageOps ++ more))

/-- The body of one `GET /export/{id}/status` reply as it reaches
`getExportStatus`: a non-200 reply, a malformed JSON body, a JSON status
object (`application/json` content type), or raw artifact bytes (any
other content type). -/
inductive StatusHTTP where
  | httpError (code : Nat) (body : String)
  | badJson (msg : String)
  | jsonBody (status message : String)
  | rawBody (data : List Nat)

/-- `getExportStatus`: a JSON body with status `error` is turned into an
error carrying the service message; any other JSON body yields its status
and no bytes; a non-JSON body yields status `completed` with the raw
bytes. -/
def getExportStatus (resp : StatusHTTP) : Except String (String × Option (List Nat)) :=
  match resp with
  | .httpError code body => .error ("unexpected status: " ++ toString code ++ ", body: " ++ body)
  | .badJson msg => .error msg
  | .jsonBody status message =>
    if status == "error" then .error ("response message: " ++ message)
    else .ok (status, none)
  | .rawBody data => .ok ("completed", some data)

/-- Outcome of `waitAndSaveExport`: either the artifact was written to
`path`, or the wait failed with a message (and no file was written). -/
inductive ExportOutcome where
  | saved (path : String) (data : List Nat)
  | failed (msg : String)

/-- The timeout message of `waitAndSaveExport` (`maxAttempts = 30`). -/
def timeoutMsg : String := "export timed out after 30 attempts"

/-- The poll loop of `waitAndSaveExport`, counting status requests.  A
status-request error aborts; status `completed` writes the bytes when
present and fails with "export data is empty" when the reply carried
none; status `error` aborts; anything else polls again. -/
def waitAndSaveExportAux (responses : Nat → StatusHTTP) (filePath : String) :
    Nat → Nat → Nat × ExportOutcome
  | _, 0 => (0, .failed timeoutMsg)
  | attempt, fuel + 1 =>
    match getExportStatus (responses attempt) with
    | .error e => (1, .failed e)
    | .ok (status, fileData) =>
      if status == "completed" then
        match fileData with
        | some data => (1, .saved filePath data)
        | none => (1, .failed "export data is empty")
      else if status == "error" then
        (1, .failed "export failed")
      else
        let r := waitAndSaveExportAux responses filePath (attempt + 1) fuel
        (r.1 + 1, r.2)

/-- `waitAndSaveExport`: at most 30 attempts starting from attempt 0. -/
def waitAndSaveExport (responses : Nat → StatusHTTP) (filePath : String) :
    Nat × ExportOutcome :=
  waitAndSaveExportAux responses filePath 0 30

/-- Responses of the group endpoints for one pipeline run. -/
structure GroupEnv where
  existsResult : Except String Bool
  deleteResult : Except String Unit
  createResult : Except String Unit
  updateResult : Except String Unit

/-- A call issued during the group phase of `main`. -/
inductive GroupCall where
  | probe
  | del
  | create
  | setMembership (refs : List OperationRef)
deriving DecidableEq

/-- The unconditional tail of the group phase: `createGroup` then
`updateGroupOperations`, each aborting on error. -/
def createAndUpdate (env : GroupEnv) (filteredOps : List Operation)
    (acc : List GroupCall) : List GroupCall × Except String Unit :=
  match env.createResult with
  | .error e => (acc ++ [.create], .error e)
  | .ok _ =>
    match env.updateResult with
    | .error e => (acc ++ [.create, .setMembership (buildOperationRefs filteredOps)], .error e)
    | .ok _ => (acc ++ [.create, .setMembership (buildOperationRefs filteredOps)], .ok ())

/-- The group phase of `main` (existence probe and delete under `force`,
then create and membership update), returning the calls issued in order
and the overall result. -/
def groupPhase (env : GroupEnv) (force : Bool) (filteredOps : List Operation) :
    List GroupCall × Except String Unit :=
  if force then
    match env.existsResult with
    | .error e => ([.probe], .error e)
    | .ok true =>
      match env.deleteResult with
      | .error e => ([.probe, .del], .error e)
      | .ok _ => createAndUpdate env filteredOps [.probe, .del]
    | .ok false => createAndUpdate env filteredOps [.probe]
  else
    createAndUpdate env filteredOps []

/-- All remote responses for one pipeline run. -/
structure PipelineEnv where
  pages : Nat → Except String (List Operation)
  groupEnv : GroupEnv
  startExportResult : Except String String
  statusResponses : Nat → StatusHTTP

/-- An observable event of the pipeline: a page request, one of the four
group calls, the export submission, a status poll, or a file write. -/
inductive PEvent where
  | pageRequest (page : Nat)
  | probeGroup
  | deleteGroupCall
  | createGroupCall
  | updateGroupCall (refs : List OperationRef)
  | submitExport
  | statusRequest
  | fileWrite (path : String) (data : List Nat)

/-- View of a group call as a pipeline event. -/
def groupCallEvent : GroupCall → PEvent
  | .probe => .probeGroup
  | .del => .deleteGroupCall
  | .create => .createGroupCall
  | .setMembership refs => .updateGroupCall refs

/-- The pipeline of `main` after flag validation: list, filter,
short-circuit on an empty filter result, group phase, export submission,
poll loop, file write.  Returns the events issued in order and the
process outcome (`.ok ()` is a zero exit). -/
def runPipeline (env : PipelineEnv) (customTagKey customTagValue groupName outputFormat : String)
    (force : Bool) (fuel : Nat) : List PEvent × Except String Unit :=
  let listResult := listOperationsAux env.pages 0 fuel
  let pageEvents := listResult.1.map PEvent.pageRequest
  match listResult.2 with
  | .error e => (pageEvents, .error e)
  | .ok operations =>
    let filteredOps := filterOperations operations customTagKey customTagValue
    if filteredOps.length == 0 then
      (pageEvents, .ok ())
    else
      let groupResult := groupPhase env.groupEnv force filteredOps
      let groupEvents := pageEvents ++ groupResult.1.map groupCallEvent
      match groupResult.2 with
      | .error e => (groupEvents, .error e)
      | .ok _ =>
        match env.startExportResult with
        | .error e => (groupEvents ++ [.submitExport], .error e)
        | .ok _ =>
          let filePath := groupName ++ "." ++ outputFormat
          let exportResult := waitAndSaveExport env.statusResponses filePath
          let pollEvents := List.replicate exportResult.1 PEvent.statusRequest
          match exportResult.2 with
          | .saved p d => (groupEvents ++ [.submitExport] ++ pollEvents ++ [.fileWrite p d], .ok ())
          | .failed m => (groupEvents ++ [.submitExport] ++ pollEvents, .error m)

/-- A status reply on which the poll loop keeps waiting: the request
succeeds and reports a status that is neither `completed` nor `error`. -/
def nonTerminalResponse (r : StatusHTTP) : Prop :=
  ∃ st d, getExportStatus r = .ok (st, d) ∧ st ≠ "completed" ∧ st ≠ "error"

theorem match_asString_eq_true_iff (o : Option String) (t : String) :
    (match o with | some s => s == t | none => false) = true ↔ o = some t := by
  cases o with
  | none => simp
  | some s => simp [beq_iff_eq]

/-- The source comparison agrees with the spec normalisation: a tag value
matches the target exactly when its set of string values contains it. -/
theorem tagMatches_eq_true_iff_mem (v : GoVal) (t : String) :
    tagMatches v t = true ↔ t ∈ stringTagValues v := by
  cases v with
  | str s =>
    simp only [tagMatches, stringTagValues, beq_iff_eq, List.mem_singleton]
    exact eq_comm
  | strList xs =>
    simp only [tagMatches, stringTagValues, List.any_eq_true, beq_iff_eq]
    constructor
    · rintro ⟨x, hx, rfl⟩; exact hx
    · intro h; exact ⟨t, h, rfl⟩
  | anyList xs =>
    simp only [tagMatches, stringTagValues, List.any_eq_true, List.mem_filterMap,
      match_asString_eq_true_iff]
  | num n => simp [tagMatches, stringTagValues]
  | boolean b => simp [tagMatches, stringTagValues]
  | obj => simp [tagMatches, stringTagValues]

/-- Skipping a block of non-terminal replies: the poll loop runs them all
and continues from the first attempt after the block, adding their count. -/
theorem waitAux_skip (responses : Nat → StatusHTTP) (path : String) (n : Nat) :
    ∀ attempt fuel, n ≤ fuel →
    (∀ i, i < n → nonTerminalResponse (responses (attempt + i))) →
    waitAndSaveExportAux responses path attempt fuel
      = ((waitAndSaveExportAux responses path (attempt + n) (fuel - n)).1 + n,
         (waitAndSaveExportAux responses path (attempt + n) (fuel - n)).2) := by
  induction n with
  | zero => intro attempt fuel _ _; simp
  | succ n ih =>
    intro attempt fuel hle hpre
    obtain ⟨f, rfl⟩ : ∃ f, fuel = f + 1 := ⟨fuel - 1, by omega⟩
    obtain ⟨st, d, hok, hc, he⟩ := hpre 0 (Nat.succ_pos n)
    rw [Nat.add_zero] at hok
    have hstep : waitAndSaveExportAux responses path attempt (f + 1)
        = ((waitAndSaveExportAux responses path (attempt + 1) f).1 + 1,
           (waitAndSaveExportAux responses path (attempt + 1) f).2) := by
      simp only [waitAndSaveExportAux, hok, beq_eq_false_iff_ne, ne_eq,
        beq_iff_eq]
      rw [if_neg hc, if_neg he]
    rw [hstep, ih (attempt + 1) f (by omega)
      (fun i hi => by
        have := hpre (i + 1) (by omega)
        rwa [show attempt + (i + 1) = attempt + 1 + i by omega] at this)]
    have h1 : attempt + 1 + n = attempt + (n + 1) := by omega
    have h2 : f - n = f + 1 - (n + 1) := by omega
    rw [h1, h2]
    rfl

/-- A status request that errors aborts the poll loop at once. -/
theorem waitAux_step_error (responses : Nat → StatusHTTP) (path : String)
    (attempt m : Nat) (e : String)
    (h : getExportStatus (responses attempt) = .error e) :
    waitAndSaveExportAux responses path attempt (m + 1) = (1, .failed e) := by
  simp [waitAndSaveExportAux, h]

/-- A `completed` status ends the poll loop: the bytes are saved when
present, otherwise the loop fails with "export data is empty". -/
theorem waitAux_step_completed (responses : Nat → StatusHTTP) (path : String)
    (attempt m : Nat) (d : Option (List Nat))
    (h : getExportStatus (responses attempt) = .ok ("completed", d)) :
    waitAndSaveExportAux responses path attempt (m + 1)
      = (1, match d with
            | some data => .saved path data
            | none => .failed "export data is empty") := by
  cases d <;> simp [waitAndSaveExportAux, h]

/-- A run of the page loop: full pages at `start + 0 .. start + n - 1`
and a short page at `start + n` produce requests for exactly those
indices and the in-order concatenation of the pages. -/
theorem listAux_run (pages : Nat → Except String (List Operation))
    (pageContent : Nat → List Operation) (n : Nat) :
    ∀ start fuel,
    (∀ i, i ≤ n → pages (start + i) = .ok (pageContent (start + i))) →
    (∀ i, i < n → (pageContent (start + i)).length = pageSize) →
    (pageContent (start + n)).length < pageSize →
    n < fuel →
    listOperationsAux pages start fuel
      = (List.range' start (n + 1),
         .ok ((List.range' start (n + 1)).map pageContent).flatten) := by
  induction n with
  | zero =>
    intro start fuel hok _ hshort hfuel
    obtain ⟨f, rfl⟩ : ∃ f, fuel = f + 1 := ⟨fuel - 1, by omega⟩
    have h0 := hok 0 (Nat.le_refl 0)
    rw [Nat.add_zero] at h0 hshort
    simp [listOperationsAux, h0, hshort, List.range'_succ]
  | succ n ih =>
    intro start fuel hok hfull hshort hfuel
    obtain ⟨f, rfl⟩ : ∃ f, fuel = f + 1 := ⟨fuel - 1, by omega⟩
    have h0 := hok 0 (Nat.zero_le _)
    have hlen := hfull 0 (Nat.succ_pos n)
    rw [Nat.add_zero] at h0 hlen
    have hnotlt : ¬ (pageContent start).length < pageSize := by omega
    have hrec := ih (start + 1) f
      (fun i hi => by
        have := hok (i + 1) (by omega)
        rwa [show start + (i + 1) = start + 1 + i by omega] at this)
      (fun i hi => by
        have := hfull (i + 1) (by omega)
        rwa [show start + (i + 1) = start + 1 + i by omega] at this)
      (by rwa [show start + 1 + n = start + (n + 1) by omega])
      (by omega)
    simp only [listOperationsAux, h0, if_neg hnotlt, hrec]
    rw [List.range'_succ start (n + 1) 1]
    simp

/-- C9: the filter is a pure function whose output is a subsequence of
the input (source order preserved) consisting exactly of the operations
whose set of string tag values under the key contains the target; an
operation lacking the tag key is excluded without producing an error. -/
theorem filterOperations_pure_characterization (ops : List Operation) (key target : String) :
    (filterOperations ops key target).Sublist ops
  ∧ ∀ op, op ∈ filterOperations ops key target ↔
      op ∈ ops ∧ ∃ v, op.customTags.lookup key = some v ∧ target ∈ stringTagValues v := by
  constructor
  · exact List.filter_sublist ops
  · intro op
    rw [filterOperations, List.mem_filter]
    have hpred :
        (match op.customTags.lookup key with
         | none => false
         | some val => tagMatches val target) = true
        ↔ ∃ v, op.customTags.lookup key = some v ∧ target ∈ stringTagValues v := by
      cases h : op.customTags.lookup key with
      | none => simp
      | some v => simp [tagMatches_eq_true_iff_mem]
    rw [hpred]

/-- C10: a tag value that is neither a string nor a list (number,
boolean, object) never matches — even against its own textual rendering
— and non-string elements of a heterogeneous list are skipped, never
compared against the target. -/
theorem nonstring_tag_values_excluded (t : String) (n : Int) (b : Bool)
    (xs : List GoVal) (id pkg key : String) :
    tagMatches (.num n) t = false
  ∧ tagMatches (.boolean b) t = false
  ∧ tagMatches .obj t = false
  ∧ tagMatches (.num n) (toString n) = false
  ∧ tagMatches (.boolean b) (if b then "true" else "false") = false
  ∧ tagMatches (.anyList xs) t = (xs.filterMap GoVal.asString).any (fun s => s == t)
  ∧ tagMatches (.anyList (GoVal.num n :: xs)) t = tagMatches (.anyList xs) t
  ∧ tagMatches (.anyList (GoVal.boolean b :: xs)) t = tagMatches (.anyList xs) t
  ∧ tagMatches (.anyList (GoVal.obj :: xs)) t = tagMatches (.anyList xs) t
  ∧ filterOperations [⟨id, [(key, .num n)], pkg⟩] key t = [] := by
  refine ⟨rfl, rfl, rfl, rfl, rfl, ?_, rfl, rfl, rfl, ?_⟩
  · rw [Bool.eq_iff_iff, tagMatches_eq_true_iff_mem]
    simp only [stringTagValues, List.any_eq_true, beq_iff_eq]
    constructor
    · intro h; exact ⟨t, h, rfl⟩
    · rintro ⟨s, hs, rfl⟩; exact hs
  · simp [filterOperations, List.lookup, tagMatches]

/-- A heterogeneous list whose only string element is `s` matches the
target exactly as the single string `s` does. -/
theorem tagMatches_mixed (s target : String) (junk₁ junk₂ : List GoVal)
    (h₁ : ∀ e ∈ junk₁, e.asString = none)
    (h₂ : ∀ e ∈ junk₂, e.asString = none) :
    tagMatches (.anyList (junk₁ ++ GoVal.str s :: junk₂)) target = (s == target) := by
  simp only [tagMatches, List.any_append, List.any_cons]
  have e₁ : junk₁.any (fun elem =>
      match elem.asString with
      | some s => s == target
      | none => false) = false := by
    rw [List.any_eq_false]
    intro e he
    simp [h₁ e he]
  have e₂ : junk₂.any (fun elem =>
      match elem.asString with
      | some s => s == target
      | none => false) = false := by
    rw [List.any_eq_false]
    intro e he
    simp [h₂ e he]
  rw [e₁, e₂]
  simp [GoVal.asString]

/-- Filtering operations that all carry the same tag value under the key
either keeps everything (when the value matches) or nothing. -/
theorem filter_withTag_const (ops : List Operation) (key target : String) (v : GoVal) :
    (filterOperations (ops.map (fun op => withTagValue op key v)) key target).map
        Operation.operationID
      = if tagMatches v target then ops.map Operation.operationID else [] := by
  rw [filterOperations, List.filter_map]
  simp only [Function.comp_def]
  have hp : ∀ op : Operation,
      (match (withTagValue op key v).customTags.lookup key with
       | none => false
       | some val => tagMatches val target) = tagMatches v target := by
    intro op
    simp [withTagValue, List.lookup]
  by_cases h : tagMatches v target = true
  · rw [if_pos h]
    have : (ops.filter fun op =>
        match (withTagValue op key v).customTags.lookup key with
        | none => false
        | some val => tagMatches val target) = ops := by
      rw [List.filter_eq_self]
      intro op _
      rw [hp op, h]
    rw [this, List.map_map]
    rfl
  · rw [if_neg h]
    have : (ops.filter fun op =>
        match (withTagValue op key v).customTags.lookup key with
        | none => false
        | some val => tagMatches val target) = [] := by
      rw [List.filter_eq_nil_iff]
      intro op _
      rw [hp op]
      exact h
    rw [this]
    rfl

/-- C1: for every operation list and target, filtering with the tag
value expressed as a single string, as a homogeneous string list, and as
a mixed-type list containing that string among non-string elements
yields identical results, and in general an operation's value matches
exactly when its set of string tag values contains the target. -/
theorem tag_shape_filter_equiv (ops : List Operation) (key s target : String)
    (junk₁ junk₂ : List GoVal)
    (h₁ : ∀ e ∈ junk₁, e.asString = none)
    (h₂ : ∀ e ∈ junk₂, e.asString = none) :
    ((filterOperations (ops.map (fun op => withTagValue op key (.str s))) key target).map
        Operation.operationID
      = (filterOperations (ops.map (fun op => withTagValue op key (.strList [s]))) key
          target).map Operation.operationID)
  ∧ ((filterOperations (ops.map (fun op => withTagValue op key (.str s))) key target).map
        Operation.operationID
      = (filterOperations (ops.map (fun op =>
          withTagValue op key (.anyList (junk₁ ++ GoVal.str s :: junk₂)))) key target).map
          Operation.operationID)
  ∧ ∀ v : GoVal, tagMatches v target = true ↔ target ∈ stringTagValues v := by
  have hsingle : tagMatches (.str s) target = (s == target) := rfl
  have hhomog : tagMatches (.strList [s]) target = (s == target) := by
    simp [tagMatches]
  have hmixed := tagMatches_mixed s target junk₁ junk₂ h₁ h₂
  refine ⟨?_, ?_, fun v => tagMatches_eq_true_iff_mem v target⟩
  · rw [filter_withTag_const, filter_withTag_const, hsingle, hhomog]
  · rw [filter_withTag_const, filter_withTag_const, hsingle, hmixed]


/-- C4: a backend with exactly `pageSize` operations on each page
`0..k-1` and fewer on page `k` makes the lister issue exactly the `k+1`
page requests `0, 1, ..., k` and return the concatenation of the pages
in request order. -/
theorem pagination_requests_and_concat (pages : Nat → Except String (List Operation))
    (pageContent : Nat → List Operation) (k fuel : Nat)
    (hok : ∀ i, i ≤ k → pages i = .ok (pageContent i))
    (hfull : ∀ i, i < k → (pageContent i).length = pageSize)
    (hshort : (pageContent k).length < pageSize)
    (hfuel : k < fuel) :
    listOperationsAux pages 0 fuel
      = (List.range (k + 1), .ok ((List.range (k + 1)).map pageContent).flatten) := by
  rw [List.range_eq_range' (k + 1)]
  exact listAux_run pages pageContent k 0 fuel
    (fun i hi => by simpa using hok i hi)
    (fun i hi => by simpa using hfull i hi)
    (by simpa using hshort)
    hfuel

/-- C3: a status sequence pending, pending, completed-with-bytes yields
exactly 3 status requests and the bytes saved verbatim to the output
file; a status sequence with no terminal reply within 30 attempts yields
exactly 30 requests, a timeout failure, and no file written. -/
theorem export_polling_counts (responses : Nat → StatusHTTP) (path : String) :
    (∀ m₀ m₁ data, responses 0 = .jsonBody "pending" m₀ →
        responses 1 = .jsonBody "pending" m₁ →
        responses 2 = .rawBody data →
        waitAndSaveExport responses path = (3, .saved path data))
  ∧ ((∀ i, i < 30 → nonTerminalResponse (responses i)) →
        waitAndSaveExport responses path = (30, .failed timeoutMsg)) := by
  constructor
  · intro m₀ m₁ data h0 h1 h2
    have hskip := waitAux_skip responses path 2 0 30 (by omega) ?pre
    case pre =>
      intro i hi
      refine ⟨"pending", none, ?_, by decide, by decide⟩
      interval_cases i
      · rw [Nat.add_zero, h0]; rfl
      · rw [h1]; rfl
    rw [waitAndSaveExport, hskip,
      waitAux_step_completed responses path (0 + 2) 27 (some data)
        (by rw [show (0 + 2 : Nat) = 2 from rfl, h2]; rfl)]
  · intro hpre
    rw [waitAndSaveExport,
      waitAux_skip responses path 30 0 30 (by omega) (fun i hi => by
        simpa using hpre i hi)]
    rfl

/-- C7: a status reply reporting `error` with message `X` makes the poll
loop fail with a message containing `X`, with no file written. -/
theorem export_error_message_surfaced (responses : Nat → StatusHTTP) (path msg : String)
    (n : Nat) (hn : n < 30)
    (hpre : ∀ i, i < n → nonTerminalResponse (responses i))
    (herr : responses n = .jsonBody "error" msg) :
    waitAndSaveExport responses path = (n + 1, .failed ("response message: " ++ msg))
  ∧ ∃ pre post, "response message: " ++ msg = pre ++ msg ++ post := by
  refine ⟨?_, "response message: ", "", by simp⟩
  rw [waitAndSaveExport,
    waitAux_skip responses path n 0 30 (by omega) (fun i hi => by simpa using hpre i hi)]
  obtain ⟨m, hm⟩ : ∃ m, 30 - n = m + 1 := ⟨30 - n - 1, by omega⟩
  rw [Nat.zero_add, hm,
    waitAux_step_error responses path n m ("response message: " ++ msg)
      (by rw [herr]; rfl)]
  exact Prod.ext_iff.mpr ⟨by omega, rfl⟩

/-- C6 counterexample: a completed reply whose raw artifact has zero
bytes is saved as an empty file — the run succeeds instead of failing,
because the emptiness check only catches an absent payload. -/
theorem empty_artifact_write_counterexample :
    waitAndSaveExport (fun _ => .rawBody []) "out.yaml" = (1, .saved "out.yaml" []) := rfl

/-- C6 amended: when a poll reports the export completed with an
artifact payload (any non-JSON body, even zero-length), the payload
bytes are written to the output file; when completion is reported by a
JSON status object, which carries no payload, the orchestrator fails
with "export data is empty" and writes no file. -/
theorem completed_artifact_handling (responses : Nat → StatusHTTP) (path : String)
    (n : Nat) (hn : n < 30)
    (hpre : ∀ i, i < n → nonTerminalResponse (responses i)) :
    (∀ data, responses n = .rawBody data →
        waitAndSaveExport responses path = (n + 1, .saved path data))
  ∧ ∀ m, responses n = .jsonBody "completed" m →
        waitAndSaveExport responses path = (n + 1, .failed "export data is empty") := by
  obtain ⟨f, hf⟩ : ∃ f, 30 - n = f + 1 := ⟨30 - n - 1, by omega⟩
  have hskip := waitAux_skip responses path n 0 30 (by omega)
    (fun i hi => by simpa using hpre i hi)
  constructor
  · intro data hdata
    rw [waitAndSaveExport, hskip, Nat.zero_add, hf,
      waitAux_step_completed responses path n f (some data) (by rw [hdata]; rfl)]
    exact Prod.ext_iff.mpr ⟨by omega, rfl⟩
  · intro m hm
    rw [waitAndSaveExport, hskip, Nat.zero_add, hf,
      waitAux_step_completed responses path n f none (by rw [hm]; rfl)]
    exact Prod.ext_iff.mpr ⟨by omega, rfl⟩

/-- C5 counterexample: two filtered operations sharing an identifier
produce a membership payload that carries that identifier twice — the
code builds one reference per operation and never deduplicates. -/
theorem membership_dup_counterexample :
    (buildOperationRefs (filterOperations
        [⟨"op-a", [("env", .str "prod")], "pkg"⟩, ⟨"op-a", [("env", .str "prod")], "pkg"⟩]
        "env" "prod")).map OperationRef.operationID = ["op-a", "op-a"]
  ∧ ¬ ((buildOperationRefs (filterOperations
        [⟨"op-a", [("env", .str "prod")], "pkg"⟩, ⟨"op-a", [("env", .str "prod")], "pkg"⟩]
        "env" "prod")).map OperationRef.operationID).Nodup := by
  constructor
  · rfl
  · decide

/-- C5 amended: the membership request contains exactly one reference
per filtered operation, carrying exactly the identifiers of the filtered
subset in order; identifiers are pairwise distinct in the request
whenever they are distinct in the filtered subset. -/
theorem membership_request_ids (operations : List Operation)
    (h : (operations.map Operation.operationID).Nodup) :
    (buildOperationRefs operations).map OperationRef.operationID
        = operations.map Operation.operationID
  ∧ ((buildOperationRefs operations).map OperationRef.operationID).Nodup := by
  have heq : (buildOperationRefs operations).map OperationRef.operationID
      = operations.map Operation.operationID := by
    rw [buildOperationRefs, List.map_map]
    rfl
  exact ⟨heq, heq ▸ h⟩

/-- C2: with `force` set and the group existing, the group phase issues
the delete, then the create, then the membership update, each exactly
once and in that order after the probe; a failure at any of these steps
drops every later call and aborts with that error. -/
theorem force_recreate_ordering (env : GroupEnv) (filteredOps : List Operation)
    (h : env.existsResult = .ok true) :
    groupPhase env true filteredOps =
      match env.deleteResult with
      | .error e => ([.probe, .del], .error e)
      | .ok _ =>
        match env.createResult with
        | .error e => ([.probe, .del, .create], .error e)
        | .ok _ =>
          match env.updateResult with
          | .error e => ([.probe, .del, .create,
              .setMembership (buildOperationRefs filteredOps)], .error e)
          | .ok _ => ([.probe, .del, .create,
              .setMembership (buildOperationRefs filteredOps)], .ok ()) := by
  rcases env with ⟨ex, delRes, createRes, updateRes⟩
  simp only at h
  subst h
  cases delRes <;> cases createRes <;> cases updateRes <;>
    simp [groupPhase, createAndUpdate]

/-- C8: when no listed operation matches the tag criterion, the filter
result is empty and the pipeline ends with a zero exit right after
listing: no existence probe, delete, create, membership update, export
submission, status poll, or file write is issued. -/
theorem empty_filter_short_circuit (env : PipelineEnv)
    (key value groupName fmt : String) (force : Bool) (fuel : Nat)
    (ops : List Operation)
    (hlist : (listOperationsAux env.pages 0 fuel).2 = .ok ops)
    (hfilter : filterOperations ops key value = []) :
    runPipeline env key value groupName fmt force fuel
      = ((listOperationsAux env.pages 0 fuel).1.map PEvent.pageRequest, .ok ())
  ∧ ∀ e ∈ (runPipeline env key value groupName fmt force fuel).1,
      ∃ p, e = PEvent.pageRequest p := by
  have hrun : runPipeline env key value groupName fmt force fuel
      = ((listOperationsAux env.pages 0 fuel).1.map PEvent.pageRequest, .ok ()) := by
    rw [runPipeline]
    simp only [hlist, hfilter]
    rfl
  refine ⟨hrun, ?_⟩
  rw [hrun]
  intro e he
  obtain ⟨p, _, rfl⟩ := List.mem_map.mp he
  exact ⟨p, rfl⟩

/-- C1 witness: on a concrete operation the single-string shape and a
mixed-type list built around the same string filter identically. -/
theorem tag_shape_filter_equiv_witness :
    (filterOperations ([⟨"a", [], "p"⟩].map (fun op => withTagValue op "k" (.str "v"))) "k"
        "v").map Operation.operationID
      = (filterOperations ([⟨"a", [], "p"⟩].map (fun op => withTagValue op "k"
          (.anyList ([GoVal.num 1] ++ GoVal.str "v" :: [GoVal.boolean true])))) "k" "v").map
        Operation.operationID :=
  (tag_shape_filter_equiv [⟨"a", [], "p"⟩] "k" "v" "v" [GoVal.num 1] [GoVal.boolean true]
    (fun e he => by rcases List.mem_singleton.mp he with rfl; rfl)
    (fun e he => by rcases List.mem_singleton.mp he with rfl; rfl)).2.1

/-- C2 witness: a concrete all-success run issues probe, delete, create,
membership update in order. -/
theorem force_recreate_ordering_witness :
    groupPhase ⟨.ok true, .ok (), .ok (), .ok ()⟩ true []
      = ([.probe, .del, .create, .setMembership []], .ok ()) :=
  force_recreate_ordering ⟨.ok true, .ok (), .ok (), .ok ()⟩ [] rfl

/-- C3 witness: concrete runs of both polling outcomes. -/
theorem export_polling_counts_witness :
    waitAndSaveExport (fun i => if i < 2 then .jsonBody "pending" "" else .rawBody [7, 8])
        "g.yaml" = (3, .saved "g.yaml" [7, 8])
  ∧ waitAndSaveExport (fun _ => .jsonBody "none" "") "h.yaml" = (30, .failed timeoutMsg) := by
  constructor
  · exact (export_polling_counts _ "g.yaml").1 "" "" [7, 8] rfl rfl rfl
  · exact (export_polling_counts _ "h.yaml").2
      (fun i hi => ⟨"none", none, rfl, by decide, by decide⟩)

/-- C4 witness: one full page of 100 operations followed by a short page
yields requests 0, 1 and the concatenation of both pages. -/
theorem pagination_requests_and_concat_witness :
    listOperationsAux
        (fun i => .ok (if i = 0 then List.replicate 100 ⟨"x", [], "p"⟩ else [⟨"y", [], "p"⟩]))
        0 2
      = (List.range 2,
         .ok ((List.range 2).map
            (fun i => if i = 0 then List.replicate 100 (⟨"x", [], "p"⟩ : Operation)
                      else [⟨"y", [], "p"⟩])).flatten) :=
  pagination_requests_and_concat _ _ 1 2
    (fun i _ => rfl)
    (fun i hi => by
      have h0 : i = 0 := by omega
      subst h0
      simp [pageSize])
    (by norm_num [pageSize])
    (by omega)

/-- C5 witness: distinct filtered identifiers reach the request exactly
and without duplication. -/
theorem membership_request_ids_witness :
    (buildOperationRefs [⟨"a", [], "p"⟩, ⟨"b", [], "p"⟩]).map OperationRef.operationID
        = ["a", "b"]
  ∧ ((buildOperationRefs [⟨"a", [], "p"⟩, ⟨"b", [], "p"⟩]).map OperationRef.operationID).Nodup :=
  membership_request_ids [⟨"a", [], "p"⟩, ⟨"b", [], "p"⟩] (by decide)

/-- C6 witness: a first-poll completed reply with payload is saved. -/
theorem completed_artifact_handling_witness :
    waitAndSaveExport (fun _ => .rawBody [7]) "g.yaml" = (1, .saved "g.yaml" [7]) :=
  (completed_artifact_handling (fun _ => .rawBody [7]) "g.yaml" 0 (by omega)
    (fun i hi => absurd hi (by omega))).1 [7] rfl

/-- C7 witness: a first-poll error reply surfaces the service message. -/
theorem export_error_message_surfaced_witness :
    waitAndSaveExport (fun _ => .jsonBody "error" "boom") "g.yaml"
      = (1, .failed ("response message: " ++ "boom"))
  ∧ ∃ pre post, "response message: " ++ "boom" = pre ++ "boom" ++ post :=
  export_error_message_surfaced (fun _ => .jsonBody "error" "boom") "g.yaml" "boom" 0
    (by omega) (fun i hi => absurd hi (by omega)) rfl

/-- C8 witness: an empty backend leaves nothing matching, and the run
ends successfully after the single page request. -/
theorem empty_filter_short_circuit_witness :
    runPipeline ⟨fun _ => .ok [], ⟨.ok false, .ok (), .ok (), .ok ()⟩, .ok "id",
        fun _ => .rawBody []⟩ "k" "v" "g" "yaml" false 1
      = ([PEvent.pageRequest 0], .ok ()) :=
  (empty_filter_short_circuit ⟨fun _ => .ok [], ⟨.ok false, .ok (), .ok (), .ok ()⟩,
      .ok "id", fun _ => .rawBody []⟩ "k" "v" "g" "yaml" false 1 [] rfl rfl).1
